import Mathlib

/-!
Shallow embedding of the version-resolution and changelog-rendering engine of
`semantic-pr-release-drafter` (src/lib/semantic-commits.js, src/lib/versions.js,
src/lib/releases.js), together with theorems settling the claims about it.

Strings are modelled as Lean `String`/`List Char`; JavaScript numbers that are
only ever non-negative integers in this code are modelled as `Nat`; nullable
values as `Option`.  JavaScript regular-expression matching is embedded by a
hand-derived deterministic matcher whose derivation from the backtracking
semantics of the concrete regex is documented at the definition site.
-/

/- ===================== basic character/string utilities ===================== -/

/-- The JavaScript whitespace class (`\s`, and the set removed by
`String.prototype.trim`): ASCII space characters plus the Unicode space
separators, line separators, NBSP and BOM. -/
def isJsSpace (c : Char) : Bool :=
  c = ' ' || c = '\t' || c = '\n' || c = '\x0b' || c = '\x0c' || c = '\r' ||
  c = '\u00A0' || c = '\u1680' || ('\u2000' ≤ c && c ≤ '\u200A') ||
  c = '\u2028' || c = '\u2029' || c = '\u202F' || c = '\u205F' ||
  c = '\u3000' || c = '\uFEFF'

/-- JavaScript `String.prototype.trim`: strip leading and trailing whitespace. -/
def trimList (l : List Char) : List Char :=
  ((l.dropWhile isJsSpace).reverse.dropWhile isJsSpace).reverse

/-- JavaScript `message.split('\n')`: split at every newline, keeping empty
segments (`''.split('\n')` is `['']`, modelled as `[[]]`). -/
def splitOnNl : List Char → List (List Char)
  | [] => [[]]
  | c :: t =>
    if c = '\n' then [] :: splitOnNl t
    else
      match splitOnNl t with
      | [] => [[c]]
      | h :: r => (c :: h) :: r

/-- Whether `p` is a prefix of `l` (used to embed `String.prototype.includes`
and `String.prototype.startsWith`). -/
def startsWithList : List Char → List Char → Bool
  | _, [] => true
  | [], _ :: _ => false
  | c :: t, d :: u => c = d && startsWithList t u

/-- JavaScript `hay.includes(needle)`: the needle occurs contiguously in the
haystack. -/
def containsList : List Char → List Char → Bool
  | [], n => startsWithList [] n
  | c :: t, n => startsWithList (c :: t) n || containsList t n

/-- ASCII lower-casing of one character, the effect of JavaScript
`toLowerCase()` on the `\w` characters that can appear in a matched TYPE
token (`[A-Za-z0-9_]`). -/
def asciiLower (c : Char) : Char :=
  if 'A' ≤ c && c ≤ 'Z' then Char.ofNat (c.toNat + 32) else c

/-- Lower-case a character list (JavaScript `type.toLowerCase()`). -/
def lowerList (l : List Char) : List Char := l.map asciiLower

/-- ASCII upper-casing of one character (JavaScript `toUpperCase()` on the
first character of a title, in the `sentence-case` post-processor). -/
def asciiUpper (c : Char) : Char :=
  if 'a' ≤ c && c ≤ 'z' then Char.ofNat (c.toNat - 32) else c

/-- The regex `\w` class: `[A-Za-z0-9_]`. -/
def isWordChar (c : Char) : Bool := c.isAlphanum || c = '_'

/-- Decimal value of a digit run (JavaScript `Number.parseInt(ds, 10)` on a
nonempty all-digit string). -/
def digitsToNat (l : List Char) : Nat :=
  l.foldl (fun a c => a * 10 + (c.toNat - '0'.toNat)) 0

/- ===================== src/lib/semantic-commits.js ===================== -/

/-- Result of a successful match of one trimmed line against
`SEMANTIC_COMMIT_REGEX`:
`/^(\w+)(?:\(([^)]+)\))?(!)?:\s*(.+?)(?:\s*\(#(\d+)\))?$/`. -/
structure SemLineMatch where
  mtype : List Char
  scope : Option (List Char)
  bang : Bool
  descr : List Char
  prNum : Option Nat
deriving Repr, DecidableEq

/-- A character the regex `.` can consume (JavaScript `.` matches everything
except line terminators). -/
def isDotChar (c : Char) : Bool :=
  !(c = '\n' || c = '\r' || c = '\u2028' || c = '\u2029')

/-- Attempt to match the tail group `\s*\(#(\d+)\)` followed by the end of the
line against the whole remaining suffix, returning the captured PR number.
Inside the group `\s*` and `\d+` are greedy but cannot trade characters with
the literal `(`, `#`, `)` delimiters, so the group matches a suffix exactly
when it is whitespace, then `(#`, then one or more digits, then a final `)`. -/
def prTailNum (s : List Char) : Option Nat :=
  let s1 := s.dropWhile isJsSpace
  match s1 with
  | '(' :: '#' :: r =>
    let ds := r.takeWhile Char.isDigit
    let rest := r.dropWhile Char.isDigit
    if !ds.isEmpty && rest = [')'] then some (digitsToNat ds) else none
  | _ => none

/-- The lazy description search `(.+?)(?:\s*\(#(\d+)\))?$`: starting after the
post-colon whitespace, the engine grows the description one `.`-matchable
character at a time and, once it is nonempty, first tries to finish with the
optional PR-number group and then with the bare end of the line.  Hence the
description is the shortest nonempty prefix whose remaining suffix either
matches `prTailNum` or is empty; a character `.` cannot consume aborts the
whole match. -/
def descSearch (acc : List Char) : List Char → Option (List Char × Option Nat)
  | [] => if acc.isEmpty then none else some (acc.reverse, none)
  | c :: r =>
    match prTailNum (c :: r) with
    | some n =>
      if acc.isEmpty then
        (if isDotChar c then descSearch (c :: acc) r else none)
      else some (acc.reverse, some n)
    | none => if isDotChar c then descSearch (c :: acc) r else none

/-- Deterministic matcher for `SEMANTIC_COMMIT_REGEX` applied to a (trimmed)
line.  Derivation from the backtracking semantics of the anchored regex:

* `^(\w+)` consumes the maximal leading run of word characters; a shorter run
  never helps, because the character following a shorter run is again a word
  character and cannot begin `(`, `!` or `:`.
* `(?:\(([^)]+)\))?`: if the next character is `(`, the group must match —
  `[^)]+` consumes everything up to the first `)` (it cannot cross it) and
  must be nonempty — since on group failure the optional-empty alternative
  leaves the `(` in place, where neither `!` nor `:` can match.
* `(!)?` consumes a `!` when present; if a consumed `!` is not followed by
  `:`, the empty alternative also fails at the `!`, so the whole match fails.
* `:` is mandatory, then `\s*` greedily consumes whitespace (lines are
  pre-trimmed, so the remainder never ends in whitespace and greediness is
  never backtracked), and `descSearch` finishes the line. -/
def matchSemLine (l : List Char) : Option SemLineMatch :=
  let ty := l.takeWhile isWordChar
  let r0 := l.dropWhile isWordChar
  if ty.isEmpty then none else
  let scopeStep : Option (Option (List Char) × List Char) :=
    match r0 with
    | '(' :: r1 =>
      let sc := r1.takeWhile (fun c => !(c = ')'))
      let r2 := r1.dropWhile (fun c => !(c = ')'))
      match r2 with
      | ')' :: r3 => if sc.isEmpty then none else some (some sc, r3)
      | _ => none
    | _ => some (none, r0)
  match scopeStep with
  | none => none
  | some (scope, r4) =>
    let bangStep : Bool × List Char :=
      match r4 with
      | '!' :: r => (true, r)
      | _ => (false, r4)
    match bangStep.2 with
    | ':' :: r6 =>
      let r7 := r6.dropWhile isJsSpace
      match descSearch [] r7 with
      | none => none
      | some (d, pr) =>
        some { mtype := ty, scope := scope, bang := bangStep.1,
               descr := d, prNum := pr }
    | _ => none

/-- An entry of the fixed `COMMIT_TYPES` table: category title and bump
weight. -/
structure CommitTypeInfo where
  title : String
  bump : String
deriving Repr, DecidableEq

/-- The fixed commit-type vocabulary `COMMIT_TYPES` of
src/lib/semantic-commits.js. -/
def COMMIT_TYPES : List (String × CommitTypeInfo) :=
  [("feat", { title := "Features", bump := "minor" }),
   ("fix", { title := "Bug Fixes", bump := "patch" }),
   ("docs", { title := "Documentation", bump := "patch" }),
   ("style", { title := "Styles", bump := "patch" }),
   ("refactor", { title := "Code Refactoring", bump := "patch" }),
   ("perf", { title := "Performance Improvements", bump := "patch" }),
   ("test", { title := "Tests", bump := "patch" }),
   ("build", { title := "Build System", bump := "patch" }),
   ("ci", { title := "Continuous Integration", bump := "patch" }),
   ("chore", { title := "Chores", bump := "patch" }),
   ("revert", { title := "Reverts", bump := "patch" })]

/-- JavaScript `COMMIT_TYPES[ty]` (property lookup in the table). -/
def lookupCommitType (ty : String) : Option CommitTypeInfo :=
  (COMMIT_TYPES.find? (fun p => p.1 = ty)).map (fun p => p.2)

/-- One element of the sequence returned by `parseSemanticCommit`. -/
structure ParsedLine where
  type : String
  scope : Option String
  descr : String
  breaking : Bool
  raw : String
  prNumberFromCommit : Option Nat
deriving Repr, DecidableEq

/-- Whether the full original message contains the literal substring
`BREAKING CHANGE:` (`message.includes('BREAKING CHANGE:')`). -/
def hasBreakingMarker (m : String) : Bool :=
  containsList m.data "BREAKING CHANGE:".data

/-- The records contributed by one raw line of the message, given the
message-level breaking flag: the body of the `for (const line of lines)` loop
of `parseSemanticCommit`.  Blank lines, lines the regex rejects and lines
whose lower-cased type is not in `COMMIT_TYPES` contribute nothing. -/
def lineRecords (hasBreakingInBody : Bool) (line : List Char) : List ParsedLine :=
  let t := trimList line
  if t.isEmpty then [] else
  match matchSemLine t with
  | none => []
  | some m =>
    let lowerType : String := ⟨lowerList m.mtype⟩
    match lookupCommitType lowerType with
    | none => []
    | some _ =>
      [{ type := lowerType,
         scope := m.scope.map (fun s => (⟨s⟩ : String)),
         descr := ⟨trimList m.descr⟩,
         breaking := m.bang || hasBreakingInBody,
         raw := ⟨t⟩,
         prNumberFromCommit := m.prNum }]

/-- `parseSemanticCommit(message)` of src/lib/semantic-commits.js.  A `null`
message is `none`; the JavaScript guard `if (!message) return []` also catches
the empty string. -/
def parseSemanticCommit (message : Option String) : List ParsedLine :=
  match message with
  | none => []
  | some m =>
    if m = "" then []
    else ((splitOnNl m.data).map (lineRecords (hasBreakingMarker m))).flatten

/-- The `ReleaseChangeLineItem` class of src/lib/semantic-commits.js (data
fields; the derived getters are separate functions below). -/
structure ReleaseChangeLineItem where
  type : String
  scope : Option String
  descr : String
  breaking : Bool
  raw : String
  commitSha : Option String
  prNumber : Option Nat
  author : Option String
deriving Repr, DecidableEq

/-- Getter `category`: lookup into the fixed type table. -/
def ReleaseChangeLineItem.category (it : ReleaseChangeLineItem) :
    Option CommitTypeInfo :=
  lookupCommitType it.type

/-- Getter `bump`: `major` if breaking, else the category's bump weight,
defaulting to `patch`. -/
def ReleaseChangeLineItem.bump (it : ReleaseChangeLineItem) : String :=
  if it.breaking then "major"
  else ((it.category).map (fun i => i.bump)).getD "patch"

/-- Getter `shortSha`: first 7 characters of the commit hash. -/
def ReleaseChangeLineItem.shortSha (it : ReleaseChangeLineItem) : Option String :=
  it.commitSha.map (fun s => (⟨s.data.take 7⟩ : String))

/-- Getter `hasBreakingChanges` of `ReleaseChangeLineItems` (the collection is
modelled as the list of its items). -/
def hasBreakingChanges (items : List ReleaseChangeLineItem) : Bool :=
  items.any (fun it => it.breaking)

/-- Getter `hasFeatures` of `ReleaseChangeLineItems`. -/
def hasFeatures (items : List ReleaseChangeLineItem) : Bool :=
  items.any (fun it => it.type = "feat")

/-- Policy argument of `resolveVersionBump` with the source's defaults. -/
structure VersionBumpConfig where
  preOneZeroMinorForBreaking : Bool := true
  noAutoMajor : Bool := true
  currentMajor : Nat := 0
deriving Repr, DecidableEq

/-- `ReleaseChangeLineItems.resolveVersionBump` of
src/lib/semantic-commits.js. -/
def resolveVersionBump (items : List ReleaseChangeLineItem)
    (cfg : VersionBumpConfig) : String :=
  if hasBreakingChanges items then
    if cfg.currentMajor = 0 && cfg.preOneZeroMinorForBreaking then "minor"
    else if cfg.noAutoMajor then "minor"
    else "major"
  else if hasFeatures items then "minor"
  else "patch"

/-- `resolveVersionBumpFromChangeItems` of src/lib/semantic-commits.js (the
free-function twin of the collection method, with the same policy). -/
def resolveVersionBumpFromChangeItems (changeItems : List ReleaseChangeLineItem)
    (cfg : VersionBumpConfig) : String :=
  let hasBreaking := changeItems.any (fun it => it.breaking)
  let hasFeature := changeItems.any (fun it => it.type = "feat")
  if hasBreaking then
    if cfg.currentMajor = 0 && cfg.preOneZeroMinorForBreaking then "minor"
    else if cfg.noAutoMajor then "minor"
    else "major"
  else if hasFeature then "minor"
  else "patch"

/- ===================== src/lib/versions.js ===================== -/

/-- A prerelease identifier of a semantic version: `semver` stores all-digit
identifiers as numbers and the rest as strings. -/
inductive PreId where
  | num (n : Nat)
  | str (s : String)
deriving Repr, DecidableEq

/-- A parsed semantic version as produced by `semver.parse` /
`semver.coerce` (build metadata is ignored by every comparison and increment
this code performs, so it is not modelled). -/
structure SemVer where
  major : Nat
  minor : Nat
  patch : Nat
  prerelease : List PreId
deriving Repr, DecidableEq

/-- Render one prerelease identifier. -/
def renderPreId : PreId → String
  | .num n => toString n
  | .str s => s

/-- The dot-joined prerelease suffix, `semver.prerelease(version)?.join('.')`. -/
def preJoin (v : SemVer) : String :=
  String.intercalate "." (v.prerelease.map renderPreId)

/-- The normalized `version` string of a parsed semver object. -/
def renderSemVer (v : SemVer) : String :=
  toString v.major ++ "." ++ toString v.minor ++ "." ++ toString v.patch ++
    (if v.prerelease.isEmpty then "" else "-" ++ preJoin v)

/-- `compareIdentifiers` of the semver package: two numeric identifiers
compare numerically, a numeric identifier is lower than an alphanumeric one,
and two alphanumeric identifiers compare as JavaScript strings. -/
def comparePreId : PreId → PreId → Ordering
  | .num a, .num b => compare a b
  | .num _, .str _ => .lt
  | .str _, .num _ => .gt
  | .str a, .str b => compare a b

/-- Compare two nonempty prerelease identifier lists element-wise; a strict
prefix is lower. -/
def comparePreList : List PreId → List PreId → Ordering
  | [], [] => .eq
  | [], _ :: _ => .lt
  | _ :: _, [] => .gt
  | a :: as, b :: bs =>
    match comparePreId a b with
    | .eq => comparePreList as bs
    | o => o

/-- `semver.compare`: major/minor/patch lexicographically; on a tie a version
without prerelease identifiers is higher than one with them, and two
prerelease lists compare element-wise. -/
def compareSemVer (a b : SemVer) : Ordering :=
  match compare a.major b.major with
  | .eq =>
    match compare a.minor b.minor with
    | .eq =>
      match compare a.patch b.patch with
      | .eq =>
        match a.prerelease, b.prerelease with
        | [], [] => .eq
        | [], _ :: _ => .gt
        | _ :: _, [] => .lt
        | x, y => comparePreList x y
      | o => o
    | o => o
  | o => o

/-- Increment the first numeric identifier of the reversed prerelease list
(i.e. the last numeric identifier of the original). -/
def incFirstNumericRev : List PreId → Option (List PreId)
  | [] => none
  | .num n :: t => some (.num (n + 1) :: t)
  | .str s :: t => (incFirstNumericRev t).map (fun t2 => .str s :: t2)

/-- The numeric-bump step of semver's `inc('pre')`: increment the last numeric
identifier, or append `0` when there is none. -/
def incLastNumericOrPush (pr : List PreId) : List PreId :=
  match incFirstNumericRev pr.reverse with
  | some r => r.reverse
  | none => pr ++ [.num 0]

/-- The `pre` case of `SemVer.prototype.inc` (identifier base 0, as in
`semver.inc(v, inc, true, identifier)` with no explicit base): an empty
prerelease becomes `[0]`, otherwise the last numeric identifier is bumped;
then a truthy identifier argument forces the prerelease to
`[identifier, 0]` unless it already starts with that identifier followed by a
numeric counter.  An empty-string identifier is falsy in JavaScript and acts
like no identifier. -/
def incPre (v : SemVer) (identifier : Option String) : SemVer :=
  let identifier := if identifier = some "" then none else identifier
  let pr := if v.prerelease.isEmpty then [PreId.num 0]
            else incLastNumericOrPush v.prerelease
  match identifier with
  | none => { v with prerelease := pr }
  | some id =>
    let repl : List PreId := [.str id, .num 0]
    match pr with
    | .str s :: rest =>
      if s = id then
        match rest with
        | .num _ :: _ => { v with prerelease := pr }
        | _ => { v with prerelease := repl }
      else { v with prerelease := repl }
    | _ => { v with prerelease := repl }

/-- The release-increment names accepted by `semver.inc` that this program
uses (`resolveVersionKeyIncrement` produces `patch`/`minor`/`major`,
optionally prefixed with `pre`, and `getVersionInfo` can rewrite the
increment to `prerelease`). -/
inductive ReleaseType where
  | major | minor | patch | premajor | preminor | prepatch | prerelease
deriving Repr, DecidableEq

/-- The JavaScript test `versionKeyIncrement?.startsWith('pre')` on the name
of a release type. -/
def isPreReleaseType : ReleaseType → Bool
  | .premajor | .preminor | .prepatch | .prerelease => true
  | _ => false

/-- `SemVer.prototype.inc` of the semver package, for the release types this
program uses.  `major`/`minor`/`patch` treat an existing prerelease of the
same level as already half-incremented (e.g. `1.0.1-rc.1` `patch`-increments
to `1.0.1`); the `pre*` forms increment the base component and then apply the
`pre` step. -/
def incSemVer (v : SemVer) (r : ReleaseType) (identifier : Option String) : SemVer :=
  match r with
  | .premajor =>
    incPre { major := v.major + 1, minor := 0, patch := 0, prerelease := [] } identifier
  | .preminor =>
    incPre { major := v.major, minor := v.minor + 1, patch := 0, prerelease := [] } identifier
  | .prepatch =>
    incPre { major := v.major, minor := v.minor, patch := v.patch + 1,
             prerelease := [] } identifier
  | .prerelease =>
    if v.prerelease.isEmpty then
      incPre { v with patch := v.patch + 1, prerelease := [] } identifier
    else incPre v identifier
  | .major =>
    if v.minor != 0 || v.patch != 0 || v.prerelease.isEmpty then
      { major := v.major + 1, minor := 0, patch := 0, prerelease := [] }
    else { major := v.major, minor := 0, patch := 0, prerelease := [] }
  | .minor =>
    if v.patch != 0 || v.prerelease.isEmpty then
      { major := v.major, minor := v.minor + 1, patch := 0, prerelease := [] }
    else { major := v.major, minor := v.minor, patch := 0, prerelease := [] }
  | .patch =>
    if v.prerelease.isEmpty then
      { major := v.major, minor := v.minor, patch := v.patch + 1, prerelease := [] }
    else { major := v.major, minor := v.minor, patch := v.patch, prerelease := [] }

/-- One named version variant (`splitSemVersion` result, or one of the
hand-built `$RESOLVED_VERSION`-style literals of `getVersionInfo`): the
rendered version string with its structural decomposition and the template it
is formatted with.  The `sv` field is the structural value whose rendering is
`version`; carried-through input fields of the JavaScript spread that nothing
downstream reads (`inc`, `versionKeyIncrement`, `inputVersion`,
`preReleaseIdentifier`) are not modelled.  `COMPLETE` is `none` for the
entries of the source's  `defaultVersionInfo` table, which lack `$COMPLETE`. -/
structure VersionPoint where
  version : String
  sv : SemVer
  tmpl : Option String
  MAJOR : Nat
  MINOR : Nat
  PATCH : Nat
  PRERELEASE : String
  COMPLETE : Option String
deriving Repr, DecidableEq

/-- Build the version point of `splitSemVersion` for an already-incremented
version. -/
def mkVersionPoint (sv : SemVer) (tmpl : Option String) : VersionPoint :=
  let pre := preJoin sv
  { version := renderSemVer sv, sv := sv, tmpl := tmpl,
    MAJOR := sv.major, MINOR := sv.minor, PATCH := sv.patch,
    PRERELEASE := if pre = "" then "" else "-" ++ pre,
    COMPLETE := some (renderSemVer sv) }

/-- `splitSemVersion` of src/lib/versions.js on an already-coerced version:
absent version yields nothing; otherwise the version is incremented when an
`inc` is set and decomposed into template fields. -/
def splitSemVersion (v : Option SemVer) (inc : Option ReleaseType)
    (preReleaseIdentifier : Option String) (tmpl : Option String) :
    Option VersionPoint :=
  v.map (fun sv0 =>
    mkVersionPoint
      (match inc with
       | some r => incSemVer sv0 r preReleaseIdentifier
       | none => sv0)
      tmpl)

/-- The mapping of named version points returned by `getTemplatableVersion` /
`getVersionInfo` (JavaScript object keys `$NEXT_MAJOR_VERSION`, ...,
`$RESOLVED_VERSION`; keys the source's `defaultVersionInfo` omits are `none`
there). -/
structure VersionTable where
  NEXT_MAJOR_VERSION : Option VersionPoint
  NEXT_MAJOR_VERSION_MAJOR : Option VersionPoint
  NEXT_MAJOR_VERSION_MINOR : Option VersionPoint
  NEXT_MAJOR_VERSION_PATCH : Option VersionPoint
  NEXT_MINOR_VERSION : Option VersionPoint
  NEXT_MINOR_VERSION_MAJOR : Option VersionPoint
  NEXT_MINOR_VERSION_MINOR : Option VersionPoint
  NEXT_MINOR_VERSION_PATCH : Option VersionPoint
  NEXT_PATCH_VERSION : Option VersionPoint
  NEXT_PATCH_VERSION_MAJOR : Option VersionPoint
  NEXT_PATCH_VERSION_MINOR : Option VersionPoint
  NEXT_PATCH_VERSION_PATCH : Option VersionPoint
  NEXT_PRERELEASE_VERSION : Option VersionPoint
  INPUT_VERSION : Option VersionPoint
  RESOLVED_VERSION : Option VersionPoint
deriving Repr, DecidableEq

/-- `getTemplatableVersion` of src/lib/versions.js: every next-version
variant, plus `$RESOLVED_VERSION` computed from `versionKeyIncrement`
(defaulting to `patch`); if an explicit input version exists it
unconditionally replaces `$RESOLVED_VERSION` (source comment: "If
inputVersion (explicit user override) exists, it always wins"). -/
def getTemplatableVersion (version : Option SemVer) (tmpl : Option String)
    (inputVersion : Option SemVer) (versionKeyIncrement : Option ReleaseType)
    (preReleaseIdentifier : Option String) : VersionTable :=
  let t : VersionTable :=
    { NEXT_MAJOR_VERSION := splitSemVersion version (some .major) preReleaseIdentifier tmpl,
      NEXT_MAJOR_VERSION_MAJOR :=
        splitSemVersion version (some .major) preReleaseIdentifier (some "$MAJOR"),
      NEXT_MAJOR_VERSION_MINOR :=
        splitSemVersion version (some .major) preReleaseIdentifier (some "$MINOR"),
      NEXT_MAJOR_VERSION_PATCH :=
        splitSemVersion version (some .major) preReleaseIdentifier (some "$PATCH"),
      NEXT_MINOR_VERSION := splitSemVersion version (some .minor) preReleaseIdentifier tmpl,
      NEXT_MINOR_VERSION_MAJOR :=
        splitSemVersion version (some .minor) preReleaseIdentifier (some "$MAJOR"),
      NEXT_MINOR_VERSION_MINOR :=
        splitSemVersion version (some .minor) preReleaseIdentifier (some "$MINOR"),
      NEXT_MINOR_VERSION_PATCH :=
        splitSemVersion version (some .minor) preReleaseIdentifier (some "$PATCH"),
      NEXT_PATCH_VERSION := splitSemVersion version (some .patch) preReleaseIdentifier tmpl,
      NEXT_PATCH_VERSION_MAJOR :=
        splitSemVersion version (some .patch) preReleaseIdentifier (some "$MAJOR"),
      NEXT_PATCH_VERSION_MINOR :=
        splitSemVersion version (some .patch) preReleaseIdentifier (some "$MINOR"),
      NEXT_PATCH_VERSION_PATCH :=
        splitSemVersion version (some .patch) preReleaseIdentifier (some "$PATCH"),
      NEXT_PRERELEASE_VERSION :=
        splitSemVersion version (some .prerelease) preReleaseIdentifier (some "$PRERELEASE"),
      INPUT_VERSION := splitSemVersion inputVersion none preReleaseIdentifier tmpl,
      RESOLVED_VERSION :=
        splitSemVersion version (some (versionKeyIncrement.getD .patch))
          preReleaseIdentifier tmpl }
  match t.INPUT_VERSION with
  | some ip => { t with RESOLVED_VERSION := some ip }
  | none => t

/-- The constant `defaultVersionInfo` table of src/lib/versions.js (its
entries carry no `$COMPLETE` field; the keys for the single-field variants do
not exist in the source object and are `none` here). -/
def defaultVersionInfo : VersionTable :=
  { NEXT_MAJOR_VERSION := some
      { version := "1.0.0", sv := ⟨1, 0, 0, []⟩, tmpl := some "$MAJOR.$MINOR.$PATCH",
        MAJOR := 1, MINOR := 0, PATCH := 0, PRERELEASE := "", COMPLETE := none },
    NEXT_MAJOR_VERSION_MAJOR := none
    NEXT_MAJOR_VERSION_MINOR := none
    NEXT_MAJOR_VERSION_PATCH := none
    NEXT_MINOR_VERSION := some
      { version := "0.1.0", sv := ⟨0, 1, 0, []⟩, tmpl := some "$MAJOR.$MINOR.$PATCH",
        MAJOR := 0, MINOR := 1, PATCH := 0, PRERELEASE := "", COMPLETE := none },
    NEXT_MINOR_VERSION_MAJOR := none
    NEXT_MINOR_VERSION_MINOR := none
    NEXT_MINOR_VERSION_PATCH := none
    NEXT_PATCH_VERSION := some
      { version := "0.1.0", sv := ⟨0, 1, 0, []⟩, tmpl := some "$MAJOR.$MINOR.$PATCH",
        MAJOR := 0, MINOR := 1, PATCH := 0, PRERELEASE := "", COMPLETE := none },
    NEXT_PATCH_VERSION_MAJOR := none
    NEXT_PATCH_VERSION_MINOR := none
    NEXT_PATCH_VERSION_PATCH := none
    NEXT_PRERELEASE_VERSION := some
      { version := "0.1.0-rc.0", sv := ⟨0, 1, 0, [.str "rc", .num 0]⟩,
        tmpl := some "$MAJOR.$MINOR.$PATCH$PRERELEASE",
        MAJOR := 0, MINOR := 1, PATCH := 0, PRERELEASE := "-rc.0", COMPLETE := none },
    INPUT_VERSION := none
    RESOLVED_VERSION := some
      { version := "0.1.0", sv := ⟨0, 1, 0, []⟩, tmpl := some "$MAJOR.$MINOR.$PATCH",
        MAJOR := 0, MINOR := 1, PATCH := 0, PRERELEASE := "", COMPLETE := none } }

/-- `hasPreReleaseTag` of src/lib/versions.js. -/
def hasPreReleaseTag : Option SemVer → Bool
  | none => false
  | some v => !v.prerelease.isEmpty

/-- `getVersionInfo` of src/lib/versions.js, on already-coerced inputs
(`coerceVersion` — tag-prefix stripping and string parsing — happens at the
function's boundary in the source and is modelled separately for the
assembler; here `release`, `inputVersion` and `draftVersion` are the coerced
semantic versions, `none` when absent or unparsable).  The `semver.valid`
guards of the source hold by construction for rendered structural versions,
and `semver.gt` on the rendered strings is the structural comparison. -/
def getVersionInfo (release : Option SemVer) (tmpl : Option String)
    (inputVersion : Option SemVer) (versionKeyIncrement : Option ReleaseType)
    (preReleaseIdentifier : Option String) (draftVersion : Option SemVer) :
    VersionTable :=
  let version := release
  let isPreVersionKeyIncrement :=
    match versionKeyIncrement with
    | some r => isPreReleaseType r
    | none => false
  -- the code below both prerelease-preservation branches (lines 271-313)
  let afterPreBranches : VersionTable :=
    let shouldIncrementAsPrerelease :=
      isPreVersionKeyIncrement &&
        (match version with
         | some v => !v.prerelease.isEmpty
         | none => false)
    let vki2 := if shouldIncrementAsPrerelease then some ReleaseType.prerelease
                else versionKeyIncrement
    let templatableVersion :=
      getTemplatableVersion version tmpl inputVersion vki2 preReleaseIdentifier
    match inputVersion, draftVersion, templatableVersion.RESOLVED_VERSION with
    | none, some dv, some rp =>
      if compareSemVer dv rp.sv = .gt then
        { templatableVersion with RESOLVED_VERSION := some (mkVersionPoint dv tmpl) }
      else templatableVersion
    | _, _, _ => templatableVersion
  if version.isNone && inputVersion.isNone && draftVersion.isNone then
    if isPreVersionKeyIncrement then
      { defaultVersionInfo with
          RESOLVED_VERSION := defaultVersionInfo.NEXT_PRERELEASE_VERSION }
    else defaultVersionInfo
  else
    match inputVersion with
    | some iv =>
      if hasPreReleaseTag (some iv) then
        let base := getTemplatableVersion version tmpl (some iv) none preReleaseIdentifier
        { base with
            INPUT_VERSION := some (mkVersionPoint iv tmpl),
            RESOLVED_VERSION := some (mkVersionPoint iv tmpl) }
      else afterPreBranches
    | none =>
      match draftVersion with
      | some dv =>
        if hasPreReleaseTag (some dv) then
          let base := getTemplatableVersion version tmpl (some dv) none preReleaseIdentifier
          { base with RESOLVED_VERSION := some (mkVersionPoint dv tmpl) }
        else afterPreBranches
      | none => afterPreBranches

/- ===================== template renderer (src/lib/template.js) ===================== -/

/-- One search/replace rule of the `replacers` configuration. -/
structure Replacer where
  search : String
  replace : String
deriving Repr, DecidableEq

/-- Insert a key/value pair into a list sorted by strictly decreasing-or-equal
key length (stable for equal lengths). -/
def insertByKeyLen (kv : String × String) :
    List (String × String) → List (String × String)
  | [] => [kv]
  | x :: t =>
    if x.1.length < kv.1.length then kv :: x :: t
    else x :: insertByKeyLen kv t

/-- Order substitution variables longest-key-first, so that
`$NEXT_MAJOR_VERSION_MAJOR` is never shadowed by a premature match on
`$NEXT_MAJOR_VERSION`. -/
def sortVarsByKeyLen (vars : List (String × String)) : List (String × String) :=
  vars.foldl (fun acc kv => insertByKeyLen kv acc) []

/-- Find the first (longest, given the pre-sorted variable list) variable key
that is a prefix of the text, returning its value and the remaining text. -/
def findVarAt (vars : List (String × String)) (l : List Char) :
    Option (String × List Char) :=
  (vars.find? (fun kv => !kv.1.isEmpty && startsWithList l kv.1.data)).map
    (fun kv => (kv.2, l.drop kv.1.data.length))

/-- Single left-to-right substitution pass: at each position the longest
matching variable key is replaced by its value (substituted values are not
re-scanned); other characters are copied.  The fuel argument is an upper
bound on the number of steps; every step consumes at least one character, so
`length + 1` fuel never runs out. -/
def substScan (vars : List (String × String)) : Nat → List Char → List Char
  | 0, l => l
  | _ + 1, [] => []
  | fuel + 1, c :: t =>
    match findVarAt vars (c :: t) with
    | some (val, rest) => val.data ++ substScan vars fuel rest
    | none => c :: substScan vars fuel t

/-- Global literal search/replace (one `replacers` rule applied to the whole
already-transformed output), left-to-right and non-overlapping. -/
def replaceAllScan (search replace : List Char) : Nat → List Char → List Char
  | 0, l => l
  | _ + 1, [] => []
  | fuel + 1, c :: t =>
    if !search.isEmpty && startsWithList (c :: t) search then
      replace ++ replaceAllScan search replace fuel ((c :: t).drop search.length)
    else c :: replaceAllScan search replace fuel t

/-- Modelled from the spec: the `template(string, variables, replacers)`
renderer of src/lib/template.js, whose source file is not part of the
snapshot.  Per the specification it substitutes every occurrence of each
variable key longest-key-first (`none` values substitute as the empty
string — the callers below pre-render values to strings), then applies the
ordered `replacers` rules sequentially, each against the already-transformed
output of the previous rule.  A `search` given as a regular-expression
literal is beyond this string model and is treated as a literal search
string. -/
def templateRender (input : String) (vars : List (String × String))
    (replacers : List Replacer) : String :=
  let sorted := sortVarsByKeyLen vars
  let substituted : List Char := substScan sorted (input.data.length + 1) input.data
  ⟨replacers.foldl
      (fun acc r => replaceAllScan r.search.data r.replace.data (acc.length + 1) acc)
      substituted⟩

/-- Render a version point for use as a template variable: per the
specification, an object value is rendered through its own `template` with
its own `$MAJOR $MINOR $PATCH $PRERELEASE $COMPLETE` fields. -/
def renderVersionPoint (p : VersionPoint) : String :=
  templateRender (p.tmpl.getD "")
    [("$MAJOR", toString p.MAJOR), ("$MINOR", toString p.MINOR),
     ("$PATCH", toString p.PATCH), ("$PRERELEASE", p.PRERELEASE),
     ("$COMPLETE", p.COMPLETE.getD "")] []

/-- The template-variable surface of a version table (the object passed as
`template(body, versionInfo)`). -/
def versionTableVars (t : VersionTable) : List (String × String) :=
  let f : Option VersionPoint → String := fun o => (o.map renderVersionPoint).getD ""
  [("$NEXT_MAJOR_VERSION", f t.NEXT_MAJOR_VERSION),
   ("$NEXT_MAJOR_VERSION_MAJOR", f t.NEXT_MAJOR_VERSION_MAJOR),
   ("$NEXT_MAJOR_VERSION_MINOR", f t.NEXT_MAJOR_VERSION_MINOR),
   ("$NEXT_MAJOR_VERSION_PATCH", f t.NEXT_MAJOR_VERSION_PATCH),
   ("$NEXT_MINOR_VERSION", f t.NEXT_MINOR_VERSION),
   ("$NEXT_MINOR_VERSION_MAJOR", f t.NEXT_MINOR_VERSION_MAJOR),
   ("$NEXT_MINOR_VERSION_MINOR", f t.NEXT_MINOR_VERSION_MINOR),
   ("$NEXT_MINOR_VERSION_PATCH", f t.NEXT_MINOR_VERSION_PATCH),
   ("$NEXT_PATCH_VERSION", f t.NEXT_PATCH_VERSION),
   ("$NEXT_PATCH_VERSION_MAJOR", f t.NEXT_PATCH_VERSION_MAJOR),
   ("$NEXT_PATCH_VERSION_MINOR", f t.NEXT_PATCH_VERSION_MINOR),
   ("$NEXT_PATCH_VERSION_PATCH", f t.NEXT_PATCH_VERSION_PATCH),
   ("$NEXT_PRERELEASE_VERSION", f t.NEXT_PRERELEASE_VERSION),
   ("$INPUT_VERSION", f t.INPUT_VERSION),
   ("$RESOLVED_VERSION", f t.RESOLVED_VERSION)]

/- ============ changelog rendering (ReleaseChangeLineItems.renderWithConfig) ============ -/

/-- JavaScript `a || b` for a nullable string `a` (both `null` and the empty
string are falsy). -/
def jsOrString (a : Option String) (b : String) : String :=
  match a with
  | some s => if s = "" then b else s
  | none => b

/-- JavaScript `a || b` for nullable numbers (`0` is falsy). -/
def jsOrNat (a b : Option Nat) : Option Nat :=
  match a with
  | some n => if n = 0 then b else some n
  | none => b

/-- Normalize a nullable string the way JavaScript `x || null` does. -/
def jsToNullStr (a : Option String) : Option String :=
  match a with
  | some s => if s = "" then none else some s
  | none => none

/-- The `sentence-case` title post-processor: upper-case the first character
(modelled for the ASCII range `toUpperCase` affects in these titles). -/
def sentenceCase (title : String) : String :=
  match title.data with
  | [] => title
  | c :: t => ⟨asciiUpper c :: t⟩

/-- The `escapeTitle` scan of `renderWithConfig`: the global regex
`[<escape set>]|` backtick-span means that, left to right, a character in the
escape set is rewritten (to `\c`, or to `c<!---->` for `@` and `#`), an
inline-code span delimited by backticks (lazy, so ending at the first closing
backtick) is longer than one character and is passed through unchanged, and
everything else is copied.  Fuel as in `substScan`. -/
def escapeScan (escSet : List Char) : Nat → List Char → List Char
  | 0, l => l
  | _ + 1, [] => []
  | fuel + 1, c :: t =>
    if escSet.contains c then
      (if c = '@' || c = '#' then c :: "<!---->".data else ['\\', c]) ++
        escapeScan escSet fuel t
    else if c = '`' then
      let content := t.takeWhile (fun d => !(d = '`'))
      let rest := t.dropWhile (fun d => !(d = '`'))
      match rest with
      | '`' :: r2 =>
        if content.all isDotChar then
          ('`' :: content ++ ['`']) ++ escapeScan escSet fuel r2
        else c :: escapeScan escSet fuel t
      | _ => c :: escapeScan escSet fuel t
    else c :: escapeScan escSet fuel t

/-- The `escapeTitle` helper of `renderWithConfig` (`if (!escapeChars) return
title`). -/
def escapeTitle (escapeChars : String) (title : String) : String :=
  if escapeChars = "" then title
  else ⟨escapeScan escapeChars.data (title.data.length + 1) title.data⟩

/-- Owner/repository pair returned by `context.repo()`. -/
structure RepoInfo where
  owner : String
  repo : String
deriving Repr, DecidableEq

/-- The `renderItem` helper of `renderWithConfig`: expand the change template
for one item (`$NUMBER` from a truthy PR number, sentence-cased and escaped
`$TITLE`, `$AUTHOR` defaulting to `ghost`, short `$SHA`, `$URL` only when PR
number, owner and repo are all available). -/
def renderItem (changeTemplate escapeChars : String) (repoInfo : RepoInfo)
    (item : ReleaseChangeLineItem) : String :=
  let prNumber : Option Nat := jsOrNat item.prNumber none
  let processedTitle := sentenceCase item.descr
  templateRender changeTemplate
    [("$TITLE", escapeTitle escapeChars processedTitle),
     ("$NUMBER", match prNumber with | some n => toString n | none => ""),
     ("$AUTHOR", jsOrString item.author "ghost"),
     ("$SHA", (item.shortSha).getD ""),
     ("$URL",
      match prNumber with
      | some n =>
        if !(repoInfo.owner = "") && !(repoInfo.repo = "") then
          "https://github.com/" ++ repoInfo.owner ++ "/" ++ repoInfo.repo ++
            "/pull/" ++ toString n
        else ""
      | none => "")] []

/-- A configured category of the changelog (`categories` entry: title, the
`commit-types` list, and `collapse-after` with `|| 0` applied). -/
structure RenderCategory where
  title : String
  commitTypes : List String
  collapseAfter : Nat
deriving Repr, DecidableEq

/-- Whether an item falls into a category: its type is listed, or the
category lists the literal token `breaking` and the item is breaking. -/
def matchesCategory (item : ReleaseChangeLineItem) (cat : RenderCategory) : Bool :=
  cat.commitTypes.contains item.type ||
    (item.breaking && cat.commitTypes.contains "breaking")

/-- Index of the first category an item matches (the `for ... break` loop of
the partitioning pass). -/
def assignedIndex (cats : List RenderCategory) (item : ReleaseChangeLineItem) :
    Option Nat :=
  cats.findIdx? (fun cat => matchesCategory item cat)

/-- The items collected into category `i` by the first-match partitioning
pass, in input order. -/
def categoryItems (cats : List RenderCategory) (items : List ReleaseChangeLineItem)
    (i : Nat) : List ReleaseChangeLineItem :=
  items.filter (fun it => assignedIndex cats it = some i)

/-- The items no category matches. -/
def uncategorizedItems (cats : List RenderCategory)
    (items : List ReleaseChangeLineItem) : List ReleaseChangeLineItem :=
  items.filter (fun it => (assignedIndex cats it).isNone)

/-- The strings one nonempty category contributes to the changelog array
(loop body of `renderWithConfig`, lines 383-417 of
src/lib/semantic-commits.js, without the leading separator): the rendered
category header, then either all items joined by newlines, or — when
`collapse-after` is positive and exceeded — all of them wrapped in one
`<details>` block whose summary is `"1 change"`/`"N changes"`. -/
def renderCategoryChunk (categoryTemplate changeTemplate escapeChars : String)
    (repoInfo : RepoInfo) (title : String) (collapseAfter : Nat)
    (catItems : List ReleaseChangeLineItem) : List String :=
  let header := templateRender categoryTemplate [("$TITLE", title)] []
  let shouldCollapse := decide (0 < collapseAfter) && decide (collapseAfter < catItems.length)
  let allItems :=
    String.intercalate "\n" (catItems.map (renderItem changeTemplate escapeChars repoInfo))
  [header ++ "\n\n",
   if shouldCollapse then
     let itemCount := catItems.length
     let summaryText := if itemCount = 1 then "1 change"
                        else toString itemCount ++ " changes"
     "<details>\n<summary>" ++ summaryText ++ "</summary>\n\n" ++ allItems ++
       "\n</details>"
   else allItems]

/-- The slice of the validated release-drafter configuration that the
version-resolution and rendering engine reads (JavaScript kebab-case keys are
camel-cased; `tagPfx` is `tag-prefix`). -/
structure VersionResolverCfg where
  preOneZeroMinorForBreaking : Option Bool
  noAutoMajor : Option Bool
deriving Repr, DecidableEq

structure Config where
  nameTemplate : Option String
  tagTemplate : Option String
  tagPfx : Option String
  changeTemplate : Option String
  categoryTemplate : Option String
  changeTitleEscapes : Option String
  noChangesTemplate : Option String
  versionTemplate : Option String
  versionResolver : VersionResolverCfg
  tmpl : String
  header : String
  footer : String
  categories : List RenderCategory
  excludeContributors : List String
  noContributorsTemplate : String
  replacers : List Replacer
  prereleaseIdentifier : String
deriving Repr, DecidableEq

/-- `ReleaseChangeLineItems.renderWithConfig` of src/lib/semantic-commits.js:
empty collection renders the no-changes template; otherwise items are
partitioned first-match into the configured categories (unmatched ones into
an uncategorized bucket rendered first), each nonempty category renders a
header and its items (collapsed per `renderCategoryChunk`), nonempty
categories are separated by blank lines, and the concatenation is trimmed. -/
def renderWithConfig (config : Config) (context : Option RepoInfo)
    (items : List ReleaseChangeLineItem) : String :=
  if items.isEmpty then jsOrString config.noChangesTemplate "* No changes"
  else
    let categories := config.categories
    let categoryTemplate := jsOrString config.categoryTemplate "## $TITLE"
    let changeTemplate := jsOrString config.changeTemplate "* $TITLE"
    let escapeChars := (config.changeTitleEscapes).getD ""
    let repoInfo := context.getD { owner := "", repo := "" }
    let uncategorized := uncategorizedItems categories items
    let uncatPart : List String :=
      if uncategorized.isEmpty then []
      else [String.intercalate "\n"
              (uncategorized.map (renderItem changeTemplate escapeChars repoInfo)) ++
            "\n\n"]
    let entries : List (RenderCategory × List ReleaseChangeLineItem) :=
      categories.enum.map (fun p => (p.2, categoryItems categories items p.1))
    let catParts : List String :=
      (entries.foldl
        (fun (acc : List String × Nat) e =>
          if e.2.isEmpty then acc
          else
            let sep : List String := if 0 < acc.2 then ["\n\n"] else []
            (acc.1 ++ sep ++
               renderCategoryChunk categoryTemplate changeTemplate escapeChars
                 repoInfo e.1.title e.1.collapseAfter e.2,
             acc.2 + 1))
        ([], 0)).1
    ⟨trimList (String.join (uncatPart ++ catParts)).data⟩

/- ============ commit objects and collection construction ============ -/

/-- The `author` field of an associated pull request: the GitHub API returns
an object with a `login`, local git returns a plain string. -/
inductive PRAuthorRep where
  | plain (s : String)
  | obj (login : String)
deriving Repr, DecidableEq

/-- One node of `commit.associatedPullRequests.nodes`. -/
structure PRNode where
  merged : Bool
  number : Option Nat
  author : Option PRAuthorRep
deriving Repr, DecidableEq

/-- A commit as consumed by this engine: hash, message, associated pull
requests, and the author fields `contributorsSentence` reads
(`commit.author.user?.login` and `commit.author.name`). -/
structure CommitObj where
  oid : Option String
  message : Option String
  associatedPullRequests : List PRNode
  authorUserLogin : Option String
  authorName : String
deriving Repr, DecidableEq

/-- `ReleaseChangeLineItems.fromCommits`: parse each commit's message, find
its first merged associated pull request, normalize the author to a string,
and emit one change item per parsed line (PR number preferring the merged
PR's over the one parsed from the message; `|| null` normalizations of the
item constructor applied). -/
def ReleaseChangeLineItems.fromCommits (commits : List CommitObj) :
    List ReleaseChangeLineItem :=
  (commits.map (fun commit =>
    let parsedResults := parseSemanticCommit commit.message
    let pr := commit.associatedPullRequests.find? (fun p => p.merged)
    let author : Option String :=
      match pr with
      | some p =>
        match p.author with
        | some (.plain s) => some s
        | some (.obj login) => some login
        | none => none
      | none => none
    parsedResults.map (fun parsed =>
      let prNumber := jsOrNat (pr.bind (fun p => p.number)) parsed.prNumberFromCommit
      { type := parsed.type,
        scope := jsToNullStr parsed.scope,
        descr := parsed.descr,
        breaking := parsed.breaking,
        raw := parsed.raw,
        commitSha := jsToNullStr commit.oid,
        prNumber := jsOrNat prNumber none,
        author := jsToNullStr author }))).flatten

/-- `parseCommitsToChangeItems` of src/lib/semantic-commits.js (the
free-function duplicate of `fromCommits`, used by the version-bump path). -/
def parseCommitsToChangeItems (commits : List CommitObj) :
    List ReleaseChangeLineItem :=
  (commits.map (fun commit =>
    let parsedResults := parseSemanticCommit commit.message
    let pr := commit.associatedPullRequests.find? (fun p => p.merged)
    let author : Option String :=
      match pr with
      | some p =>
        match p.author with
        | some (.plain s) => some s
        | some (.obj login) => some login
        | none => none
      | none => none
    parsedResults.map (fun parsed =>
      let prNumber := jsOrNat (pr.bind (fun p => p.number)) parsed.prNumberFromCommit
      { type := parsed.type,
        scope := jsToNullStr parsed.scope,
        descr := parsed.descr,
        breaking := parsed.breaking,
        raw := parsed.raw,
        commitSha := jsToNullStr commit.oid,
        prNumber := jsOrNat prNumber none,
        author := jsToNullStr author }))).flatten

/-- `resolveVersionBumpFromCommits` of src/lib/semantic-commits.js. -/
def resolveVersionBumpFromCommits (commits : List CommitObj)
    (cfg : VersionBumpConfig) : String :=
  resolveVersionBumpFromChangeItems (parseCommitsToChangeItems commits) cfg

/- ============ src/lib/releases.js ============ -/

/-- An author of a merged pull request as read by `contributorsSentence`. -/
structure MergedPRAuthor where
  login : String
  typeName : Option String
  url : String
deriving Repr, DecidableEq

/-- A merged pull request as read by `contributorsSentence`. -/
structure MergedPR where
  author : Option MergedPRAuthor
deriving Repr, DecidableEq

/-- Insertion into a JavaScript `Set` of strings (dedup, keep first
insertion order). -/
def addToSet (l : List String) (s : String) : List String :=
  if l.contains s then l else l ++ [s]

/-- Lexicographic code-point order on strings — the effect of JavaScript's
default `Array.prototype.sort` comparator on these strings (identical to the
UTF-16 code-unit order on the basic plane). -/
def strLeList : List Char → List Char → Bool
  | [], _ => true
  | _ :: _, [] => false
  | a :: as, b :: bs =>
    if a.toNat < b.toNat then true
    else if b.toNat < a.toNat then false
    else strLeList as bs

/-- Insertion sort of strings in ascending lexicographic order. -/
def insertSortedStr (s : String) : List String → List String
  | [] => [s]
  | x :: t => if strLeList s.data x.data then s :: x :: t else x :: insertSortedStr s t

def sortStrings (l : List String) : List String :=
  l.foldr insertSortedStr []

/-- `contributorsSentence` of src/lib/releases.js: the deduplicated, sorted
set of `@handle`s of commit authors (plain names when no account) and
non-excluded PR authors (bots as markdown links), joined as `"a, b and c"`,
with a configured fallback when empty. -/
def contributorsSentence (commits : List CommitObj) (pullRequests : List MergedPR)
    (config : Config) : String :=
  let afterCommits := commits.foldl
    (fun (acc : List String) commit =>
      match commit.authorUserLogin with
      | some login =>
        if config.excludeContributors.contains login then acc
        else addToSet acc ("@" ++ login)
      | none => addToSet acc commit.authorName) []
  let contributors := pullRequests.foldl
    (fun acc pr =>
      match pr.author with
      | some a =>
        if config.excludeContributors.contains a.login then acc
        else if a.typeName = some "Bot" then
          addToSet acc ("[" ++ a.login ++ "[bot]](" ++ a.url ++ ")")
        else addToSet acc ("@" ++ a.login)
      | none => acc) afterCommits
  let sortedContributors := sortStrings contributors
  if 1 < sortedContributors.length then
    String.intercalate ", " sortedContributors.dropLast ++ " and " ++
      (sortedContributors.getLast?).getD ""
  else if sortedContributors.length = 1 then (sortedContributors.head?).getD ""
  else config.noContributorsTemplate

/-- `generateChangeLog` of src/lib/releases.js (the `mergedPullRequests`
argument is unused by the commit-based path). -/
def generateChangeLog (mergedPullRequests : List MergedPR)
    (commits : List CommitObj) (config : Config) (context : Option RepoInfo) :
    String :=
  let _ := mergedPullRequests
  renderWithConfig config context (ReleaseChangeLineItems.fromCommits commits)

/- ============ version coercion (coerceVersion / toSemver) ============ -/

/-- Split a character list at every occurrence of the given character. -/
def splitOnCharGen (ch : Char) : List Char → List (List Char)
  | [] => [[]]
  | c :: t =>
    if c = ch then [] :: splitOnCharGen ch t
    else
      match splitOnCharGen ch t with
      | [] => [[c]]
      | h :: r => (c :: h) :: r

/-- A strict numeric component `0|[1-9]\d*` of the semver grammar. -/
def parseNumStrict (l : List Char) : Option Nat :=
  if l.isEmpty then none
  else if !l.all Char.isDigit then none
  else if l = ['0'] || l.head? ≠ some '0' then some (digitsToNat l)
  else none

/-- A strict prerelease identifier: `0|[1-9]\d*` (stored numerically) or
`\d*[a-zA-Z-][a-zA-Z0-9-]*` (stored as a string). -/
def parsePreIdStrict (l : List Char) : Option PreId :=
  if l.isEmpty then none
  else if l.all Char.isDigit then
    if l = ['0'] || l.head? ≠ some '0' then some (.num (digitsToNat l)) else none
  else if l.all (fun c => c.isAlphanum || c = '-') then some (.str ⟨l⟩)
  else none

/-- A build-metadata identifier `[0-9a-zA-Z-]+` (validated, then ignored). -/
def isBuildId (l : List Char) : Bool :=
  !l.isEmpty && l.all (fun c => c.isAlphanum || c = '-')

/-- `semver.parse` (strict): trim, optional leading `v`, then
`MAJOR.MINOR.PATCH` with strict numeric components, an optional `-`-prefixed
dot-separated prerelease and an optional `+`-prefixed build suffix (ignored).
The package's length and numeric-range limits are not modelled. -/
def parseSemVerStr (s : String) : Option SemVer :=
  let l0 := trimList s.data
  let l1 := match l0 with
            | 'v' :: t => t
            | _ => l0
  let majRun := l1.takeWhile Char.isDigit
  let r1 := l1.dropWhile Char.isDigit
  match parseNumStrict majRun, r1 with
  | some major, '.' :: r2 =>
    let minRun := r2.takeWhile Char.isDigit
    let r3 := r2.dropWhile Char.isDigit
    match parseNumStrict minRun, r3 with
    | some minor, '.' :: r4 =>
      let patRun := r4.takeWhile Char.isDigit
      let r5 := r4.dropWhile Char.isDigit
      match parseNumStrict patRun with
      | some patch =>
        let mkOk : List PreId → Option SemVer := fun pre =>
          some { major := major, minor := minor, patch := patch, prerelease := pre }
        let checkBuild : List Char → List PreId → Option SemVer := fun b pre =>
          if (splitOnCharGen '.' b).all isBuildId then mkOk pre else none
        match r5 with
        | [] => mkOk []
        | '+' :: b => checkBuild b []
        | '-' :: r6 =>
          let preRaw := r6.takeWhile (fun c => !(c = '+'))
          let rest := r6.dropWhile (fun c => !(c = '+'))
          let ids := (splitOnCharGen '.' preRaw).map parsePreIdStrict
          if ids.all (fun o => o.isSome) then
            let pre := ids.filterMap id
            match rest with
            | [] => mkOk pre
            | '+' :: b => checkBuild b pre
            | _ => none
          else none
        | _ => none
      | none => none
    | _, _ => none
  | _, _ => none

/-- One attempt of the `semver.coerce` regex at a position where a digit run
begins: `(\d{1,16})(?:\.(\d{1,16}))?(?:\.(\d{1,16}))?` followed by a
non-digit boundary.  A component run longer than 16 digits makes that
optional group (and everything after it) backtrack away; the boundary then
holds because a maximal digit run is followed by a non-digit or the end. -/
def coerceAt (l : List Char) : Option SemVer :=
  let run := l.takeWhile Char.isDigit
  let rest := l.dropWhile Char.isDigit
  if run.isEmpty || 16 < run.length then none
  else
    let major := digitsToNat run
    match rest with
    | '.' :: r2 =>
      let run2 := r2.takeWhile Char.isDigit
      let rest2 := r2.dropWhile Char.isDigit
      if run2.isEmpty || 16 < run2.length then
        some { major := major, minor := 0, patch := 0, prerelease := [] }
      else
        let minor := digitsToNat run2
        match rest2 with
        | '.' :: r3 =>
          let run3 := r3.takeWhile Char.isDigit
          if run3.isEmpty || 16 < run3.length then
            some { major := major, minor := minor, patch := 0, prerelease := [] }
          else
            some { major := major, minor := minor, patch := digitsToNat run3,
                   prerelease := [] }
        | _ => some { major := major, minor := minor, patch := 0, prerelease := [] }
    | _ => some { major := major, minor := 0, patch := 0, prerelease := [] }

/-- Left-to-right scan of `semver.coerce`: the first digit run not preceded
by a digit that yields a match wins; prerelease information is never
produced ("doesn't handle prerelease"). -/
def coerceScan (prevDigit : Bool) : List Char → Option SemVer
  | [] => none
  | c :: t =>
    if !prevDigit && c.isDigit then
      match coerceAt (c :: t) with
      | some v => some v
      | none => coerceScan true t
    else coerceScan c.isDigit t

/-- `toSemver` of src/lib/versions.js: strict parse, falling back to
coercion. -/
def toSemver (version : String) : Option SemVer :=
  match parseSemVerStr version with
  | some v => some v
  | none => coerceScan false version.data

/-- Input of `coerceVersion`: a version string or a release-like object with
`tag_name` and `name`. -/
inductive CoerceInput where
  | str (s : String)
  | rel (tag_name : String) (name : String)
deriving Repr, DecidableEq

/-- The `stripTag` helper of `coerceVersion` (a falsy/empty prefix strips
nothing). -/
def stripTagPfx (tagPfx : Option String) (input : String) : String :=
  match tagPfx with
  | some p =>
    if !(p = "") && startsWithList input.data p.data then ⟨input.data.drop p.data.length⟩
    else input
  | none => input

/-- `coerceVersion` of src/lib/versions.js (an absent or empty input is
falsy and yields nothing; an object tries `tag_name` then `name`). -/
def coerceVersion (input : Option CoerceInput) (tagPfx : Option String) :
    Option SemVer :=
  match input with
  | none => none
  | some (.str s) => if s = "" then none else toSemver (stripTagPfx tagPfx s)
  | some (.rel tag name) =>
    match toSemver (stripTagPfx tagPfx tag) with
    | some v => some v
    | none => toSemver (stripTagPfx tagPfx name)

/- ============ generateReleaseInfo ============ -/

/-- A release record as read by `generateReleaseInfo` (`tag_name` and `name`
are what `coerceVersion` and the template variables consume). -/
structure Release where
  tag_name : String
  name : String
deriving Repr, DecidableEq

/-- The first match of `/v?(\d+)/` against a tag name: the first digit run,
optionally preceded by a `v`, captured as a number. -/
def findVersionMajor : List Char → Option Nat
  | [] => none
  | c :: t =>
    if c = 'v' then
      match t with
      | d :: _ =>
        if d.isDigit then some (digitsToNat (t.takeWhile Char.isDigit))
        else findVersionMajor t
      | [] => none
    else if c.isDigit then some (digitsToNat ((c :: t).takeWhile Char.isDigit))
    else findVersionMajor t

/-- The string release types `resolveVersionKeyIncrement` produces, as typed
release increments: the bare bump, or — for the `` `pre${bump}` `` template
string — the `pre`-prefixed one. -/
def strToReleaseType (s : String) : ReleaseType :=
  if s = "major" then .major else if s = "minor" then .minor else .patch

def strToPreReleaseType (s : String) : ReleaseType :=
  if s = "major" then .premajor else if s = "minor" then .preminor else .prepatch

/-- `resolveVersionKeyIncrement` of src/lib/releases.js: policy flags from
`version-resolver` (true unless explicitly false), the current major parsed
from the last release's tag, bump resolution over the parsed commits, and a
`pre` prefix when drafting a prerelease with a configured identifier. -/
def resolveVersionKeyIncrement (commits : List CommitObj) (config : Config)
    (isPreRelease : Bool) (lastRelease : Option Release) : ReleaseType :=
  let preOneZeroMinorForBreaking :=
    !(config.versionResolver.preOneZeroMinorForBreaking = some false)
  let noAutoMajor := !(config.versionResolver.noAutoMajor = some false)
  let currentMajor :=
    match lastRelease with
    | some r => (findVersionMajor r.tag_name.data).getD 0
    | none => 0
  let versionKeyIncrement := resolveVersionBumpFromCommits commits
    { preOneZeroMinorForBreaking := preOneZeroMinorForBreaking,
      noAutoMajor := noAutoMajor, currentMajor := currentMajor }
  let shouldIncrementAsPrerelease :=
    isPreRelease && !(config.prereleaseIdentifier = "")
  if !shouldIncrementAsPrerelease then strToReleaseType versionKeyIncrement
  else strToPreReleaseType versionKeyIncrement

/-- The input record of `generateReleaseInfo` (the `context` argument is
reduced to the owner/repo pair `context.repo()` returns). -/
structure GenInput where
  repoOwner : String
  repoName : String
  commits : List CommitObj
  config : Config
  lastRelease : Option Release
  mergedPullRequests : List MergedPR
  version : Option String
  tag : Option String
  name : Option String
  isPreRelease : Bool
  latest : String
  shouldDraft : Bool
  targetCommitish : String
deriving Repr, DecidableEq

/-- The record `generateReleaseInfo` returns. -/
structure ReleaseInfo where
  name : String
  tag : String
  body : String
  targetCommitish : String
  prerelease : Bool
  make_latest : String
  draft : Bool
  resolvedVersion : String
  majorVersion : Nat
  minorVersion : Nat
  patchVersion : Nat
deriving Repr, DecidableEq

/-- `generateReleaseInfo` of src/lib/releases.js: render the body from
header+template+footer with the structural variables and replacers, resolve
the version increment and the version table (the explicit override being
`version || tag || name`; no draft version is passed), expand the body, tag
and name through the version variables, blank a `refs/tags/` target, and
return the assembled record.  The result is `none` exactly when
`$RESOLVED_VERSION` is absent, where the JavaScript would throw on reading
`.version`. -/
def generateReleaseInfo (g : GenInput) : Option ReleaseInfo :=
  let body0 := g.config.header ++ g.config.tmpl ++ g.config.footer
  let body1 := templateRender body0
    [("$PREVIOUS_TAG", match g.lastRelease with | some r => r.tag_name | none => ""),
     ("$CHANGES",
      generateChangeLog g.mergedPullRequests g.commits g.config
        (some { owner := g.repoOwner, repo := g.repoName })),
     ("$CONTRIBUTORS", contributorsSentence g.commits g.mergedPullRequests g.config),
     ("$OWNER", g.repoOwner),
     ("$REPOSITORY", g.repoName)]
    g.config.replacers
  let versionKeyIncrement :=
    resolveVersionKeyIncrement g.commits g.config g.isPreRelease g.lastRelease
  let inputVersionStr :=
    match g.version with
    | some s => if s = "" then (match g.tag with
                                | some t => if t = "" then g.name else some t
                                | none => g.name)
                else some s
    | none =>
      match g.tag with
      | some t => if t = "" then g.name else some t
      | none => g.name
  let versionInfo := getVersionInfo
    (coerceVersion (g.lastRelease.map (fun r => CoerceInput.rel r.tag_name r.name))
      g.config.tagPfx)
    g.config.versionTemplate
    (coerceVersion (inputVersionStr.map CoerceInput.str) g.config.tagPfx)
    (some versionKeyIncrement)
    (some g.config.prereleaseIdentifier)
    none
  let vars := versionTableVars versionInfo
  let body2 := templateRender body1 vars []
  let tag :=
    match g.tag with
    | none => templateRender (jsOrString g.config.tagTemplate "") vars []
    | some t => templateRender t vars []
  let name :=
    match g.name with
    | none => templateRender (jsOrString g.config.nameTemplate "") vars []
    | some n => templateRender n vars []
  let targetCommitish :=
    if startsWithList g.targetCommitish.data "refs/tags/".data then ""
    else g.targetCommitish
  match versionInfo.RESOLVED_VERSION with
  | none => none
  | some rp =>
    some { name := name, tag := tag, body := body2,
           targetCommitish := targetCommitish,
           prerelease := g.isPreRelease, make_latest := g.latest,
           draft := g.shouldDraft,
           resolvedVersion := rp.version, majorVersion := rp.MAJOR,
           minorVersion := rp.MINOR, patchVersion := rp.PATCH }

/- ===================== theorems ===================== -/

/-- The `$RESOLVED_VERSION` string of a version table. -/
def resolvedVersionOf (t : VersionTable) : Option String :=
  t.RESOLVED_VERSION.map (fun p => p.version)

/-- Every record of `parseSemanticCommit` comes from one line of the split
message. -/
theorem mem_parseSemanticCommit {msg : String} {r : ParsedLine}
    (h : r ∈ parseSemanticCommit (some msg)) :
    ∃ line ∈ splitOnNl msg.data, r ∈ lineRecords (hasBreakingMarker msg) line := by
  unfold parseSemanticCommit at h
  split at h
  · exact absurd h (List.not_mem_nil r)
  · rename_i m2 heq
    injection heq with heq
    subst heq
    split at h
    · exact absurd h (List.not_mem_nil r)
    · rw [List.mem_flatten] at h
      obtain ⟨l, hl, hr⟩ := h
      rw [List.mem_map] at hl
      obtain ⟨line, hline, rfl⟩ := hl
      exact ⟨line, hline, hr⟩

/-- Structure of a record contributed by one line: it arises from a
successful regex match, its type is the lower-cased matched type and is in
the vocabulary, and its breaking flag is the local `!` marker or the
message-level flag. -/
theorem lineRecords_spec {flag : Bool} {line : List Char} {r : ParsedLine}
    (h : r ∈ lineRecords flag line) :
    ∃ m, matchSemLine (trimList line) = some m ∧
      r.type = (⟨lowerList m.mtype⟩ : String) ∧
      r.breaking = (m.bang || flag) ∧
      (lookupCommitType r.type).isSome = true := by
  simp only [lineRecords] at h
  split at h
  · exact absurd h (by simp)
  · split at h
    · exact absurd h (by simp)
    · rename_i m hm
      split at h
      · exact absurd h (by simp)
      · rename_i info hinfo
        simp only [List.mem_singleton] at h
        subst h
        exact ⟨m, hm, rfl, rfl, by simp [hinfo]⟩

/-- Every commit-type table entry carries bump weight `minor` or `patch`. -/
theorem lookupCommitType_bump {ty : String} {info : CommitTypeInfo}
    (h : lookupCommitType ty = some info) :
    info.bump = "minor" ∨ info.bump = "patch" := by
  simp only [lookupCommitType, Option.map_eq_some'] at h
  obtain ⟨p, hp, rfl⟩ := h
  have hmem := List.mem_of_find?_eq_some hp
  fin_cases hmem <;> simp

/-- C4: `resolveVersionBump` implements exactly the documented policy table —
minor for a breaking change at major 0 with the pre-1.0 guard, else minor for
a breaking change under `noAutoMajor`, else major for a breaking change, else
minor for a feature, else patch — and the free-function twin
`resolveVersionBumpFromChangeItems` agrees with it. -/
theorem claim_C4_bump_policy (items : List ReleaseChangeLineItem)
    (cfg : VersionBumpConfig) :
    (resolveVersionBump items cfg =
      if ∃ it ∈ items, it.breaking = true then
        if cfg.currentMajor = 0 ∧ cfg.preOneZeroMinorForBreaking = true then "minor"
        else if cfg.noAutoMajor = true then "minor"
        else "major"
      else if ∃ it ∈ items, it.type = "feat" then "minor"
      else "patch")
    ∧ resolveVersionBumpFromChangeItems items cfg = resolveVersionBump items cfg := by
  constructor
  · have h1 : (∃ it ∈ items, it.breaking = true) ↔ hasBreakingChanges items = true := by
      simp [hasBreakingChanges, List.any_eq_true]
    have h2 : (∃ it ∈ items, it.type = "feat") ↔ hasFeatures items = true := by
      simp [hasFeatures, List.any_eq_true]
    simp only [resolveVersionBump, h1, h2, Bool.and_eq_true, decide_eq_true_iff]
  · rfl

/-- C5: a message containing the literal substring `BREAKING CHANGE:`
anywhere marks every record it parses to as breaking; without that substring
a record is breaking exactly when its own line's regex match carries the `!`
marker. -/
theorem claim_C5_breaking_propagation (msg : String) :
    (hasBreakingMarker msg = true →
      ∀ r ∈ parseSemanticCommit (some msg), r.breaking = true)
    ∧ (hasBreakingMarker msg = false →
      ∀ line ∈ splitOnNl msg.data,
        ∀ r ∈ lineRecords (hasBreakingMarker msg) line,
          r.breaking = (matchSemLine (trimList line)).elim false (fun m => m.bang)) := by
  constructor
  · intro hm r hr
    obtain ⟨line, _, hrec⟩ := mem_parseSemanticCommit hr
    obtain ⟨m, _, _, hb, _⟩ := lineRecords_spec hrec
    rw [hb, hm, Bool.or_true]
  · intro hm line _ r hr
    obtain ⟨m, hmatch, _, hb, _⟩ := lineRecords_spec hr
    rw [hb, hm, Bool.or_false, hmatch]
    rfl

/-- C5 witness: a concrete two-line message with a `BREAKING CHANGE:` footer
marks the `feat: a` record (which has no local `!`) as breaking. -/
theorem claim_C5_witness :
    hasBreakingMarker "feat: a\nBREAKING CHANGE: x" = true ∧
    ({ type := "feat", scope := none, descr := "a", breaking := true,
       raw := "feat: a", prNumberFromCommit := none } : ParsedLine).breaking = true :=
  ⟨by decide,
   (claim_C5_breaking_propagation "feat: a\nBREAKING CHANGE: x").1 (by decide)
     { type := "feat", scope := none, descr := "a", breaking := true,
       raw := "feat: a", prNumberFromCommit := none } (by decide)⟩

/-- C6: parsing is total — `null` and empty messages yield the empty
sequence, the parse is exactly the per-line records of the split message, and
a line that fails the semantic pattern, or matches with a type outside the
vocabulary, contributes zero records. -/
theorem claim_C6_parse_skip :
    parseSemanticCommit none = [] ∧ parseSemanticCommit (some "") = [] ∧
    (∀ msg : String,
      parseSemanticCommit (some msg) =
        ((splitOnNl msg.data).map (lineRecords (hasBreakingMarker msg))).flatten) ∧
    (∀ msg : String, ∀ line ∈ splitOnNl msg.data,
      (matchSemLine (trimList line) = none ∨
        ∀ m, matchSemLine (trimList line) = some m →
          lookupCommitType (⟨lowerList m.mtype⟩ : String) = none) →
      lineRecords (hasBreakingMarker msg) line = []) := by
  refine ⟨rfl, by decide, ?_, ?_⟩
  · intro msg
    by_cases h : msg = ""
    · subst h; decide
    · simp [parseSemanticCommit, h]
  · intro msg line _ hcase
    simp only [lineRecords]
    split
    · rfl
    · split
      · rfl
      · rename_i m hm
        rcases hcase with hnone | hforall
        · rw [hm] at hnone; exact absurd hnone (by simp)
        · rw [hforall m hm]

/-- C6 witness: a non-conventional line and an unrecognized-type line each
contribute zero records, and parsing never fails on them. -/
theorem claim_C6_witness :
    lineRecords (hasBreakingMarker "not conventional") "not conventional".data = [] ∧
    lineRecords (hasBreakingMarker "unknown: hi") "unknown: hi".data = [] ∧
    parseSemanticCommit (some "not conventional\nunknown: hi") = [] :=
  ⟨claim_C6_parse_skip.2.2.2 "not conventional" "not conventional".data (by decide)
      (Or.inl (by decide)),
   claim_C6_parse_skip.2.2.2 "unknown: hi" "unknown: hi".data (by decide)
      (Or.inr (by decide)),
   by decide⟩

/-- C10: every parsed record's type is the lower-cased matched TYPE token and
a key of the fixed commit-type table, and every change item with such a type
derives a bump among patch, minor and major. -/
theorem claim_C10_type_invariant :
    ∀ (msg : String) (r : ParsedLine), r ∈ parseSemanticCommit (some msg) →
      (∃ line ∈ splitOnNl msg.data, ∃ m,
        matchSemLine (trimList line) = some m ∧
        r.type = (⟨lowerList m.mtype⟩ : String)) ∧
      (lookupCommitType r.type).isSome = true ∧
      (∀ it : ReleaseChangeLineItem, it.type = r.type →
        it.bump = "patch" ∨ it.bump = "minor" ∨ it.bump = "major") := by
  intro msg r hr
  obtain ⟨line, hline, hrec⟩ := mem_parseSemanticCommit hr
  obtain ⟨m, hmatch, hty, _, hsome⟩ := lineRecords_spec hrec
  refine ⟨⟨line, hline, m, hmatch, hty⟩, hsome, ?_⟩
  intro it hit
  unfold ReleaseChangeLineItem.bump
  split
  · right; right; rfl
  · rw [ReleaseChangeLineItem.category, hit]
    obtain ⟨info, hinfo⟩ := Option.isSome_iff_exists.mp hsome
    rw [hinfo]
    rcases lookupCommitType_bump hinfo with hb | hb
    · right; left; simp [hb]
    · left; simp [hb]

/-- C10 witness: the upper-case line `FEAT: x` is accepted, stored with the
lower-cased type `feat`, and its derived bump is `minor`. -/
theorem claim_C10_witness :
    ((parseSemanticCommit (some "FEAT: x")).map (fun r => r.type) = ["feat"]) ∧
    (lookupCommitType "feat").isSome = true ∧
    ReleaseChangeLineItem.bump
      { type := "feat", scope := none, descr := "x", breaking := false,
        raw := "FEAT: x", commitSha := none, prNumber := none, author := none } =
      "minor" :=
  ⟨by decide,
   (claim_C10_type_invariant "FEAT: x"
      { type := "feat", scope := none, descr := "x", breaking := false,
        raw := "FEAT: x", prNumberFromCommit := none } (by decide)).2.1,
   by decide⟩

/-- C1 counterexample: with prior version `1.0.0`, bump class `minor`
(computed value `1.1.0`) and the lower explicit override `0.5.0`, the
resolver returns the override `0.5.0`, not the computed `1.1.0` the claim
requires when the override is not strictly greater than the computed value. -/
theorem claim_C1_counterexample :
    renderSemVer (incSemVer ⟨1, 0, 0, []⟩ .minor none) = "1.1.0" ∧
    compareSemVer ⟨0, 5, 0, []⟩ (incSemVer ⟨1, 0, 0, []⟩ .minor none) = .lt ∧
    resolvedVersionOf
        (getVersionInfo (some ⟨1, 0, 0, []⟩) none (some ⟨0, 5, 0, []⟩)
          (some .minor) none none) = some "0.5.0" ∧
    ¬ resolvedVersionOf
        (getVersionInfo (some ⟨1, 0, 0, []⟩) none (some ⟨0, 5, 0, []⟩)
          (some .minor) none none) = some "1.1.0" := by
  refine ⟨by decide, by decide, by decide, by decide⟩

/-- C1 amended: an explicit override without a prerelease tag is adopted as
`$RESOLVED_VERSION` unconditionally — whether it is lower than, equal to or
greater than the bump-computed value — for every prior version and bump
class. -/
theorem claim_C1_amended (pv : SemVer) (tmpl : Option String)
    (vki : Option ReleaseType) (preId : Option String) (ov : SemVer)
    (h : ov.prerelease = []) :
    (getVersionInfo (some pv) tmpl (some ov) vki preId none).RESOLVED_VERSION =
      some (mkVersionPoint ov tmpl) := by
  simp [getVersionInfo, hasPreReleaseTag, h, getTemplatableVersion, splitSemVersion]

/-- C1 amended witness: prior `1.0.0`, bump `minor`, override `0.5.0`. -/
theorem claim_C1_amended_witness :
    (getVersionInfo (some ⟨1, 0, 0, []⟩) none (some ⟨0, 5, 0, []⟩)
        (some .minor) none none).RESOLVED_VERSION =
      some (mkVersionPoint ⟨0, 5, 0, []⟩ none) :=
  claim_C1_amended ⟨1, 0, 0, []⟩ none (some .minor) none ⟨0, 5, 0, []⟩ rfl

/-- C2: with no explicit override and a draft version without a prerelease
tag, the resolved version is the draft when it is strictly greater than the
bump-computed version, and the computed version otherwise — the draft is a
floor, never a ceiling. -/
theorem claim_C2_draft_floor (pv : SemVer) (tmpl : Option String)
    (bump : ReleaseType) (hb : isPreReleaseType bump = false)
    (preId : Option String) (dv : SemVer) (hd : dv.prerelease = []) :
    (getVersionInfo (some pv) tmpl none (some bump) preId (some dv)).RESOLVED_VERSION =
      some (if compareSemVer dv (incSemVer pv bump preId) = .gt
            then mkVersionPoint dv tmpl
            else mkVersionPoint (incSemVer pv bump preId) tmpl) := by
  simp only [getVersionInfo, hasPreReleaseTag, hd, hb, getTemplatableVersion,
    splitSemVersion, Option.isNone_none, Option.isNone_some, Bool.false_and,
    Bool.and_false, Bool.and_self, List.isEmpty_nil, Bool.not_true,
    Option.map_some', Option.map_none', Option.getD_some]
  split
  · rename_i hcontra
    exact absurd hcontra (by simp)
  · split
    · rename_i hgt
      have h2 : compareSemVer dv (incSemVer pv bump preId) = .gt := hgt
      rw [if_pos h2]
    · rename_i hng
      have h2 : ¬ compareSemVer dv (incSemVer pv bump preId) = .gt := hng
      rw [if_neg h2]
      rfl

/-- C2 witness: prior `1.0.0`, minor bump (computed `1.1.0`), draft `2.0.0`
(strictly greater) — the draft wins; the specification's companion example
draft `1.0.5` loses to `1.1.0`. -/
theorem claim_C2_witness :
    ((getVersionInfo (some ⟨1, 0, 0, []⟩) none none (some .minor) none
        (some ⟨2, 0, 0, []⟩)).RESOLVED_VERSION =
      some (if compareSemVer ⟨2, 0, 0, []⟩ (incSemVer ⟨1, 0, 0, []⟩ .minor none) = .gt
            then mkVersionPoint ⟨2, 0, 0, []⟩ none
            else mkVersionPoint (incSemVer ⟨1, 0, 0, []⟩ .minor none) none)) ∧
    resolvedVersionOf (getVersionInfo (some ⟨1, 0, 0, []⟩) none none (some .minor) none
        (some ⟨2, 0, 0, []⟩)) = some "2.0.0" ∧
    resolvedVersionOf (getVersionInfo (some ⟨1, 0, 0, []⟩) none none (some .minor) none
        (some ⟨1, 0, 5, []⟩)) = some "1.1.0" :=
  ⟨claim_C2_draft_floor ⟨1, 0, 0, []⟩ none .minor rfl none ⟨2, 0, 0, []⟩ rfl,
   by decide, by decide⟩

/-- C3: with no explicit override, a draft version carrying a prerelease tag
is preserved verbatim as the resolved version, whatever the requested bump
class. -/
theorem claim_C3_prerelease_preserved (pv : SemVer) (tmpl : Option String)
    (vki : Option ReleaseType) (preId : Option String) (dv : SemVer)
    (hd : dv.prerelease ≠ []) :
    (getVersionInfo (some pv) tmpl none vki preId (some dv)).RESOLVED_VERSION =
      some (mkVersionPoint dv tmpl) ∧
    resolvedVersionOf (getVersionInfo (some pv) tmpl none vki preId (some dv)) =
      some (renderSemVer dv) := by
  have h1 : (getVersionInfo (some pv) tmpl none vki preId (some dv)).RESOLVED_VERSION =
      some (mkVersionPoint dv tmpl) := by
    simp [getVersionInfo, hasPreReleaseTag, List.isEmpty_iff, hd]
  exact ⟨h1, by rw [resolvedVersionOf, h1]; rfl⟩

/-- C3 witness: draft `2.0.0-rc.1` with prior `1.0.0` and a major bump
request resolves to `2.0.0-rc.1` verbatim. -/
theorem claim_C3_witness :
    ((getVersionInfo (some ⟨1, 0, 0, []⟩) none none (some .major) none
        (some ⟨2, 0, 0, [.str "rc", .num 1]⟩)).RESOLVED_VERSION =
      some (mkVersionPoint ⟨2, 0, 0, [.str "rc", .num 1]⟩ none)) ∧
    resolvedVersionOf (getVersionInfo (some ⟨1, 0, 0, []⟩) none none (some .major) none
        (some ⟨2, 0, 0, [.str "rc", .num 1]⟩)) = some "2.0.0-rc.1" :=
  ⟨(claim_C3_prerelease_preserved ⟨1, 0, 0, []⟩ none (some .major) none
      ⟨2, 0, 0, [.str "rc", .num 1]⟩ (by decide)).1,
   by decide⟩

/-- C7: with no prior version, no override and no draft, the resolver returns
the fixed default table, whose resolved version is `0.1.0`, or `0.1.0-rc.0`
when the requested bump class is a prerelease-family increment. -/
theorem claim_C7_default_table (tmpl : Option String) (vki : Option ReleaseType)
    (preId : Option String) :
    getVersionInfo none tmpl none vki preId none =
      (if (vki.map isPreReleaseType).getD false then
        { defaultVersionInfo with
            RESOLVED_VERSION := defaultVersionInfo.NEXT_PRERELEASE_VERSION }
       else defaultVersionInfo) ∧
    resolvedVersionOf (getVersionInfo none tmpl none vki preId none) =
      some (if (vki.map isPreReleaseType).getD false then "0.1.0-rc.0" else "0.1.0") := by
  cases vki with
  | none => exact ⟨rfl, rfl⟩
  | some r => cases r <;> exact ⟨rfl, rfl⟩

/-- C8: a category with a positive collapse-after threshold renders its
header and then, when the item count exceeds the threshold, all of its
rendered items inside one collapsible block whose summary reads `1 change`
for a single item and `N changes` otherwise; when the count is at most the
threshold (including exactly equal), the items are rendered plainly. -/
theorem claim_C8_collapse (categoryTemplate changeTemplate escapeChars : String)
    (repoInfo : RepoInfo) (title : String) (collapseAfter : Nat)
    (hT : 0 < collapseAfter) (catItems : List ReleaseChangeLineItem) :
    renderCategoryChunk categoryTemplate changeTemplate escapeChars repoInfo
        title collapseAfter catItems =
      [templateRender categoryTemplate [("$TITLE", title)] [] ++ "\n\n",
       if collapseAfter < catItems.length then
         "<details>\n<summary>" ++
           (if catItems.length = 1 then "1 change"
            else toString catItems.length ++ " changes") ++
           "</summary>\n\n" ++
           String.intercalate "\n"
             (catItems.map (renderItem changeTemplate escapeChars repoInfo)) ++
           "\n</details>"
       else
         String.intercalate "\n"
           (catItems.map (renderItem changeTemplate escapeChars repoInfo))] := by
  have hAB : (0 < collapseAfter ∧ collapseAfter < catItems.length) ↔
      collapseAfter < catItems.length :=
    ⟨fun h => h.2, fun h => ⟨hT, h⟩⟩
  simp only [renderCategoryChunk, Bool.and_eq_true, decide_eq_true_eq, hAB]

/-- C8 witness: threshold 2 with three items collapses all three under a
`3 changes` summary; with exactly two items nothing collapses. -/
theorem claim_C8_witness :
    (renderCategoryChunk "## $TITLE" "* $TITLE" "" { owner := "", repo := "" }
        "Bug Fixes" 2
        [{ type := "fix", scope := none, descr := "A", breaking := false,
           raw := "fix: A", commitSha := none, prNumber := none, author := none },
         { type := "fix", scope := none, descr := "B", breaking := false,
           raw := "fix: B", commitSha := none, prNumber := none, author := none },
         { type := "fix", scope := none, descr := "C", breaking := false,
           raw := "fix: C", commitSha := none, prNumber := none, author := none }] =
      ["## Bug Fixes\n\n",
       "<details>\n<summary>3 changes</summary>\n\n* A\n* B\n* C\n</details>"]) ∧
    (renderCategoryChunk "## $TITLE" "* $TITLE" "" { owner := "", repo := "" }
        "Bug Fixes" 2
        [{ type := "fix", scope := none, descr := "A", breaking := false,
           raw := "fix: A", commitSha := none, prNumber := none, author := none },
         { type := "fix", scope := none, descr := "B", breaking := false,
           raw := "fix: B", commitSha := none, prNumber := none, author := none }] =
      ["## Bug Fixes\n\n", "* A\n* B"]) := by
  have h := claim_C8_collapse "## $TITLE" "* $TITLE" "" { owner := "", repo := "" }
    "Bug Fixes" 2 (by decide)
    [{ type := "fix", scope := none, descr := "A", breaking := false,
       raw := "fix: A", commitSha := none, prNumber := none, author := none },
     { type := "fix", scope := none, descr := "B", breaking := false,
       raw := "fix: B", commitSha := none, prNumber := none, author := none },
     { type := "fix", scope := none, descr := "C", breaking := false,
       raw := "fix: C", commitSha := none, prNumber := none, author := none }]
  exact ⟨by rw [h]; decide, by decide⟩

/-- C9: the release-info assembler is a pure function of its inputs — two
invocations with identical commits, configuration, prior release and
draft/override state yield byte-identical body, tag and name and identical
numeric version fields. -/
theorem claim_C9_deterministic (a b : GenInput) (h : a = b) :
    (generateReleaseInfo a).map (fun r => r.body) =
      (generateReleaseInfo b).map (fun r => r.body) ∧
    (generateReleaseInfo a).map (fun r => r.tag) =
      (generateReleaseInfo b).map (fun r => r.tag) ∧
    (generateReleaseInfo a).map (fun r => r.name) =
      (generateReleaseInfo b).map (fun r => r.name) ∧
    (generateReleaseInfo a).map
        (fun r => (r.resolvedVersion, r.majorVersion, r.minorVersion, r.patchVersion)) =
      (generateReleaseInfo b).map
        (fun r => (r.resolvedVersion, r.majorVersion, r.minorVersion, r.patchVersion)) := by
  subst h
  exact ⟨rfl, rfl, rfl, rfl⟩

/-- A small concrete assembler input for the determinism witness. -/
def witnessGenInput : GenInput :=
  { repoOwner := "o", repoName := "r",
    commits :=
      [{ oid := some "abc1234def", message := some "feat: New thing",
         associatedPullRequests :=
           [{ merged := true, number := some 7, author := some (.obj "amy") }],
         authorUserLogin := some "amy", authorName := "Amy" }],
    config :=
      { nameTemplate := some "v$RESOLVED_VERSION", tagTemplate := some "v$RESOLVED_VERSION",
        tagPfx := some "", changeTemplate := some "* $TITLE",
        categoryTemplate := some "## $TITLE", changeTitleEscapes := some "",
        noChangesTemplate := some "* No changes",
        versionTemplate := some "$MAJOR.$MINOR.$PATCH$PRERELEASE",
        versionResolver := { preOneZeroMinorForBreaking := some true,
                             noAutoMajor := some true },
        tmpl := "$CHANGES", header := "", footer := "",
        categories := [{ title := "Features", commitTypes := ["feat"], collapseAfter := 0 }],
        excludeContributors := [], noContributorsTemplate := "No contributors",
        replacers := [], prereleaseIdentifier := "" },
    lastRelease := some { tag_name := "v1.2.3", name := "v1.2.3" },
    mergedPullRequests := [], version := none, tag := none, name := none,
    isPreRelease := false, latest := "true", shouldDraft := true,
    targetCommitish := "refs/heads/main" }

/-- C9 witness: the determinism theorem applied at a concrete input, together
with the concrete output it produces there. -/
theorem claim_C9_witness :
    ((generateReleaseInfo witnessGenInput).map (fun r => r.body) =
      (generateReleaseInfo witnessGenInput).map (fun r => r.body) ∧
    (generateReleaseInfo witnessGenInput).map (fun r => r.tag) =
      (generateReleaseInfo witnessGenInput).map (fun r => r.tag) ∧
    (generateReleaseInfo witnessGenInput).map (fun r => r.name) =
      (generateReleaseInfo witnessGenInput).map (fun r => r.name) ∧
    (generateReleaseInfo witnessGenInput).map
        (fun r => (r.resolvedVersion, r.majorVersion, r.minorVersion, r.patchVersion)) =
      (generateReleaseInfo witnessGenInput).map
        (fun r => (r.resolvedVersion, r.majorVersion, r.minorVersion, r.patchVersion))) ∧
    (generateReleaseInfo witnessGenInput).map (fun r => (r.tag, r.resolvedVersion)) =
      some ("v1.3.0", "1.3.0") :=
  ⟨claim_C9_deterministic witnessGenInput witnessGenInput rfl, by decide⟩
